import Mathlib

/-!
Shallow embedding of `priceholder-rs` (`src/lib.rs`).

The store keeps, per key (`String`), a `Price` slot with the latest value and
a list of pending one-shot notification channels (`std::sync::mpsc::sync_channel(1)`).
Channels are modelled by natural-number identifiers allocated from a counter
`nextId` carried in the store; the channel environment `Chans` records, per
identifier, the channel's one-slot buffer and whether the receiving half is
still held by a blocked caller (`recvLive`).  `SyncSender::send` succeeds and
fills the buffer when the receiver is alive, and fails with `SendError`
otherwise; `Receiver::recv` is modelled by `recvResult`, the outcome of the
blocked receive evaluated against a (later) store and channel state: `some (.ok v)`
when the buffer holds `v`, `some (.error _)` when no value was buffered and no
sender half survives anywhere in the store, and `none` when the call is still
blocked.  Rust's `next_price` is the registration half (`price_receiver`,
executed under the lock in the `ThreadSafe` variant) followed by the blocking
receive outside the lock.
-/

namespace PriceHolderRs

instance {ε α : Type} [DecidableEq ε] [DecidableEq α] : DecidableEq (Except ε α) := fun x y =>
  match x, y with
  | .ok a, .ok b =>
    if h : a = b then .isTrue (by rw [h]) else .isFalse (fun hc => h (Except.ok.inj hc))
  | .error a, .error b =>
    if h : a = b then .isTrue (by rw [h]) else .isFalse (fun hc => h (Except.error.inj hc))
  | .ok _, .error _ => .isFalse (fun hc => Except.noConfusion hc)
  | .error _, .ok _ => .isFalse (fun hc => Except.noConfusion hc)

/-- Channel environment: per channel identifier, the one-slot buffer of the
`sync_channel(1)` and whether the receiving half is still held by a caller. -/
structure Chans (α : Type) where
  buffer : Nat → Option α
  recvLive : Nat → Bool

/-- The channel environment before any channel has been created. -/
def Chans.init (α : Type) : Chans α :=
  ⟨fun _ => none, fun _ => false⟩

/-- Embeds `std::sync::mpsc::SendError<T>`: returned by `send` when the
receiver was dropped; carries the undelivered value. -/
structure SendErr (α : Type) where
  val : α
deriving DecidableEq

/-- Embeds `std::sync::mpsc::RecvError`: returned by `recv` when every sender
was dropped without a value being sent. -/
inductive RecvErr where
  | mk
deriving DecidableEq

/-- Embeds `struct Price<T> { value: Option<T>, waiters: Option<Vec<SyncSender<T>>> }`;
senders are represented by their channel identifiers. -/
structure Price (α : Type) where
  value : Option α
  waiters : Option (List Nat)
deriving DecidableEq

/-- Embeds `Price::new`. -/
def Price.new (α : Type) : Price α :=
  ⟨none, none⟩

/-- Embeds `Price::from(value)`. -/
def Price.fromValue (v : α) : Price α :=
  ⟨some v, none⟩

/-- Embeds `Price::add_waiter`: push the sender onto `waiters`, creating the
vector if absent. -/
def Price.add_waiter {α : Type} (p : Price α) (w : Nat) : Price α :=
  match p.waiters with
  | some ws => { p with waiters := some (ws ++ [w]) }
  | none => { p with waiters := some [w] }

/-- Embeds `SyncSender::send` on channel `c`: succeeds (filling the buffer)
iff the receiving half is still alive. -/
def sendOne {α : Type} (ch : Chans α) (c : Nat) (v : α) : Chans α × Bool :=
  if ch.recvLive c then
    ({ ch with buffer := fun d => if d = c then some v else ch.buffer d }, true)
  else
    (ch, false)

/-- Embeds the loop `for waiter in waiters { waiter.send(value)?; }`:
sends to each waiter in order, stopping (the `?` operator) at the first
failed send.  Returns the updated channel environment and whether every
send succeeded. -/
def sendAll {α : Type} (v : α) : List Nat → Chans α → Chans α × Bool
  | [], ch => (ch, true)
  | w :: ws, ch =>
    let r := sendOne ch w v
    if r.2 then sendAll v ws r.1 else (r.1, false)

/-- Embeds `Price::notify_waiters`: if waiters are registered, send the value
to each in order; on complete success clear `waiters`; the `?` operator makes
a failed send return early with `SendError`, leaving `waiters` in place. -/
def Price.notify_waiters {α : Type} (p : Price α) (v : α) (ch : Chans α) :
    Price α × Chans α × Except (SendErr α) Unit :=
  match p.waiters with
  | none => (p, ch, .ok ())
  | some ws =>
    let r := sendAll v ws ch
    if r.2 then ({ p with waiters := none }, r.1, .ok ()) else (p, r.1, .error ⟨v⟩)

/-- Embeds `Price::update_price`: store the value, then notify the waiters. -/
def Price.update_price {α : Type} (p : Price α) (v : α) (ch : Chans α) :
    Price α × Chans α × Except (SendErr α) Unit :=
  Price.notify_waiters { p with value := some v } v ch

/-- Embeds `ThreadUnsafe<T>`: the `HashMap<String, Price<T>>` as an
association list (first binding of a key is the live one; keys occur at most
once in any reachable state), plus the fresh-channel-identifier supply. -/
structure ThreadUnsafe (α : Type) where
  hashmap : List (String × Price α)
  nextId : Nat

/-- Association-list lookup, embedding `HashMap::get` / `get_mut`. -/
def mapLookup {α : Type} : List (String × Price α) → String → Option (Price α)
  | [], _ => none
  | (k', p) :: rest, k => if k' = k then some p else mapLookup rest k

/-- In-place update of an existing binding, embedding mutation through
`HashMap::get_mut`. -/
def mapUpdate {α : Type} : List (String × Price α) → String → Price α → List (String × Price α)
  | [], _, _ => []
  | (k', q) :: rest, k, p =>
    if k' = k then (k', p) :: rest else (k', q) :: mapUpdate rest k p

/-- Embeds `ThreadUnsafe::new`. -/
def ThreadUnsafe.new (α : Type) : ThreadUnsafe α :=
  ⟨[], 0⟩

/-- Embeds `ThreadUnsafe::put_price`: update the existing slot (storing the
value and notifying waiters) or insert a fresh slot holding only the value. -/
def ThreadUnsafe.put_price {α : Type} (s : ThreadUnsafe α) (symbol : String) (value : α)
    (ch : Chans α) : ThreadUnsafe α × Chans α × Except (SendErr α) Unit :=
  match mapLookup s.hashmap symbol with
  | some price =>
    let r := price.update_price value ch
    ({ s with hashmap := mapUpdate s.hashmap symbol r.1 }, r.2.1, r.2.2)
  | none =>
    ({ s with hashmap := s.hashmap ++ [(symbol, Price.fromValue value)] }, ch, .ok ())

/-- Embeds `ThreadUnsafe::get_price`: the slot's current value, if any. -/
def ThreadUnsafe.get_price {α : Type} (s : ThreadUnsafe α) (symbol : String) : Option α :=
  match mapLookup s.hashmap symbol with
  | some price => price.value
  | none => none

/-- Embeds `ThreadUnsafe::price_receiver`: create a fresh `sync_channel(1)`
(buffer empty, receiver alive), register its sender as a waiter on the key's
slot (creating the slot if absent), and hand back the receiver's identifier. -/
def ThreadUnsafe.price_receiver {α : Type} (s : ThreadUnsafe α) (symbol : String)
    (ch : Chans α) : ThreadUnsafe α × Chans α × Nat :=
  let tx := s.nextId
  let ch' : Chans α :=
    { buffer := fun d => if d = tx then none else ch.buffer d,
      recvLive := fun d => if d = tx then true else ch.recvLive d }
  match mapLookup s.hashmap symbol with
  | some price =>
    (⟨mapUpdate s.hashmap symbol (price.add_waiter tx), tx + 1⟩, ch', tx)
  | none =>
    (⟨s.hashmap ++ [(symbol, (Price.new α).add_waiter tx)], tx + 1⟩, ch', tx)

/-- A sender half for channel `c` survives iff `c` is registered in some
slot's waiter list; when none survives, a pending `recv` observes `RecvError`. -/
def ThreadUnsafe.senderAlive {α : Type} (s : ThreadUnsafe α) (c : Nat) : Bool :=
  s.hashmap.any fun kp =>
    match kp.2.waiters with
    | some ws => ws.contains c
    | none => false

/-- Outcome of the blocked `Receiver::recv` on channel `c`, evaluated against
the store and channel state at a given instant: a buffered value is returned;
with no buffered value the call errors once every sender is gone, and is still
blocked (`none`) while a sender survives. -/
def recvResult {α : Type} (s : ThreadUnsafe α) (ch : Chans α) (c : Nat) :
    Option (Except RecvErr α) :=
  match ch.buffer c with
  | some v => some (.ok v)
  | none => if s.senderAlive c then none else some (.error RecvErr.mk)

/-- Embeds the tests' `ph.hashmap.get_mut(sym).unwrap().waiters = None`:
drop a slot's waiter senders without delivering. -/
def ThreadUnsafe.clearWaiters {α : Type} (s : ThreadUnsafe α) (symbol : String) :
    ThreadUnsafe α :=
  match mapLookup s.hashmap symbol with
  | some price => { s with hashmap := mapUpdate s.hashmap symbol { price with waiters := none } }
  | none => s

/-- The waiter identifiers currently registered on `symbol`'s slot. -/
def slotWaiters {α : Type} (s : ThreadUnsafe α) (symbol : String) : List Nat :=
  match mapLookup s.hashmap symbol with
  | some price => price.waiters.getD []
  | none => []

/-- `n` consecutive completed waiter registrations (`price_receiver`) on the
same key; returns the final state and the receivers handed out, in order. -/
def registerN {α : Type} (symbol : String) :
    Nat → ThreadUnsafe α → Chans α → ThreadUnsafe α × Chans α × List Nat
  | 0, s, ch => (s, ch, [])
  | n + 1, s, ch =>
    let r := s.price_receiver symbol ch
    let r2 := registerN symbol n r.1 r.2.1
    (r2.1, r2.2.1, r.2.2 :: r2.2.2)

/-- Embeds `ThreadSafe<T>`: an `Arc<Mutex<ThreadUnsafe<T>>>` handle.  Lock
acquisition serialises the delegated calls, so each delegated operation is one
atomic step on the shared inner store. -/
structure ThreadSafe (α : Type) where
  inner : ThreadUnsafe α

/-- Embeds `ThreadSafe::new`. -/
def ThreadSafe.new (α : Type) : ThreadSafe α :=
  ⟨ThreadUnsafe.new α⟩

/-- Embeds `ThreadSafe::put_price`: lock, delegate, unlock. -/
def ThreadSafe.put_price {α : Type} (s : ThreadSafe α) (symbol : String) (value : α)
    (ch : Chans α) : ThreadSafe α × Chans α × Except (SendErr α) Unit :=
  let r := s.inner.put_price symbol value ch
  (⟨r.1⟩, r.2.1, r.2.2)

/-- Embeds `ThreadSafe::get_price`: lock, delegate, unlock. -/
def ThreadSafe.get_price {α : Type} (s : ThreadSafe α) (symbol : String) : Option α :=
  s.inner.get_price symbol

/-- Embeds the locked phase of `ThreadSafe::next_price`:
`let rx = { self.inner.lock().unwrap().price_receiver(symbol) };` — the lock is
held for exactly this registration step and released before `rx.recv()`. -/
def ThreadSafe.next_price_registration {α : Type} (s : ThreadSafe α) (symbol : String)
    (ch : Chans α) : ThreadSafe α × Chans α × Nat :=
  let r := s.inner.price_receiver symbol ch
  (⟨r.1⟩, r.2.1, r.2.2)

/-- The shared-variant analogue of `clearWaiters` (the test
`test_thread_safe_channel_closed` performs this mutation under the lock). -/
def ThreadSafe.clearWaiters {α : Type} (s : ThreadSafe α) (symbol : String) : ThreadSafe α :=
  ⟨s.inner.clearWaiters symbol⟩

/-- Well-formedness: every waiter identifier registered anywhere in the store
was allocated before `nextId`.  This holds for every store reachable from
`ThreadUnsafe.new`, because `price_receiver` hands out strictly increasing
identifiers (in Rust, distinct `sync_channel` allocations). -/
def ThreadUnsafe.wf {α : Type} (s : ThreadUnsafe α) : Prop :=
  ∀ kp ∈ s.hashmap, ∀ w ∈ kp.2.waiters.getD [], w < s.nextId

/-! ### Association-list lemmas -/

theorem mapLookup_mapUpdate_self {α : Type} (l : List (String × Price α)) (k : String)
    (p q : Price α) (h : mapLookup l k = some q) :
    mapLookup (mapUpdate l k p) k = some p := by
  induction l with
  | nil => simp [mapLookup] at h
  | cons hd tl ih =>
    obtain ⟨k', q'⟩ := hd
    by_cases hk : k' = k
    · simp [mapLookup, mapUpdate, hk]
    · simp only [mapLookup, mapUpdate, hk, if_false] at h ⊢
      exact ih h

theorem mapLookup_mapUpdate_ne {α : Type} (l : List (String × Price α)) (k k' : String)
    (p : Price α) (h : k ≠ k') :
    mapLookup (mapUpdate l k p) k' = mapLookup l k' := by
  induction l with
  | nil => rfl
  | cons hd tl ih =>
    obtain ⟨k0, q⟩ := hd
    by_cases hk : k0 = k
    · subst hk
      simp [mapLookup, mapUpdate, h]
    · simp only [mapLookup, mapUpdate, hk, if_false]
      by_cases hk' : k0 = k' <;> simp [hk', ih]

theorem mapLookup_append_self {α : Type} (l : List (String × Price α)) (k : String)
    (p : Price α) (h : mapLookup l k = none) :
    mapLookup (l ++ [(k, p)]) k = some p := by
  induction l with
  | nil => simp [mapLookup]
  | cons hd tl ih =>
    obtain ⟨k', q⟩ := hd
    by_cases hk : k' = k
    · simp [mapLookup, hk] at h
    · simp only [List.cons_append, mapLookup, hk, if_false] at h ⊢
      exact ih h

theorem mapLookup_append_ne {α : Type} (l : List (String × Price α)) (k k' : String)
    (p : Price α) (h : k ≠ k') :
    mapLookup (l ++ [(k, p)]) k' = mapLookup l k' := by
  induction l with
  | nil => simp [mapLookup, h]
  | cons hd tl ih =>
    obtain ⟨k0, q⟩ := hd
    by_cases hk : k0 = k'
    · simp [mapLookup, hk]
    · simp only [List.cons_append, mapLookup, hk, if_false]
      exact ih

theorem mapUpdate_mapUpdate {α : Type} (l : List (String × Price α)) (k : String)
    (p q : Price α) : mapUpdate (mapUpdate l k p) k q = mapUpdate l k q := by
  induction l with
  | nil => rfl
  | cons hd tl ih =>
    obtain ⟨k', r⟩ := hd
    by_cases hk : k' = k
    · simp [mapUpdate, hk]
    · simp [mapUpdate, hk, ih]

theorem mapUpdate_append_of_none {α : Type} (l : List (String × Price α)) (k : String)
    (p q : Price α) (h : mapLookup l k = none) :
    mapUpdate (l ++ [(k, p)]) k q = l ++ [(k, q)] := by
  induction l with
  | nil => simp [mapUpdate]
  | cons hd tl ih =>
    obtain ⟨k', r⟩ := hd
    by_cases hk : k' = k
    · simp [mapLookup, hk] at h
    · simp only [mapLookup, hk, if_false] at h
      simp [mapUpdate, hk, ih h]

theorem mem_mapUpdate {α : Type} (l : List (String × Price α)) (k : String) (p : Price α)
    (kp : String × Price α) (h : kp ∈ mapUpdate l k p) : kp ∈ l ∨ kp.2 = p := by
  induction l with
  | nil => cases h
  | cons hd tl ih =>
    obtain ⟨k', q⟩ := hd
    by_cases hk : k' = k
    · simp only [mapUpdate, hk, if_pos rfl] at h
      rcases List.mem_cons.mp h with rfl | hmem
      · right; rfl
      · left; exact List.mem_cons_of_mem _ hmem
    · simp only [mapUpdate, hk, if_false] at h
      rcases List.mem_cons.mp h with rfl | hmem
      · left; exact List.mem_cons_self _ _
      · rcases ih hmem with hmem' | hval
        · left; exact List.mem_cons_of_mem _ hmem'
        · right; exact hval

theorem mapLookup_mem {α : Type} (l : List (String × Price α)) (k : String) (p : Price α)
    (h : mapLookup l k = some p) : (k, p) ∈ l := by
  induction l with
  | nil => simp [mapLookup] at h
  | cons hd tl ih =>
    obtain ⟨k', q⟩ := hd
    by_cases hk : k' = k
    · subst hk
      simp [mapLookup] at h
      subst h
      exact List.mem_cons_self _ _
    · simp only [mapLookup, hk, if_false] at h
      exact List.mem_cons_of_mem _ (ih h)

/-! ### `sendAll` lemmas -/

theorem sendAll_recvLive {α : Type} (v : α) (ws : List Nat) :
    ∀ ch : Chans α, ((sendAll v ws ch).1).recvLive = ch.recvLive := by
  induction ws with
  | nil => intro ch; rfl
  | cons w ws ih =>
    intro ch
    by_cases h : ch.recvLive w
    · simp only [sendAll, sendOne, h, if_true]
      exact ih _
    · simp [sendAll, sendOne, h]

theorem sendAll_buffer {α : Type} (v : α) (ws : List Nat) :
    ∀ (ch : Chans α) (c : Nat),
      ((sendAll v ws ch).1).buffer c = ch.buffer c ∨ ((sendAll v ws ch).1).buffer c = some v := by
  induction ws with
  | nil => intro ch c; left; rfl
  | cons w ws ih =>
    intro ch c
    by_cases h : ch.recvLive w
    · simp only [sendAll, sendOne, h, if_true]
      rcases ih { ch with buffer := fun d => if d = w then some v else ch.buffer d } c with h1 | h1
      · rw [h1]
        by_cases hc : c = w
        · right; simp [hc]
        · left; simp [hc]
      · right; exact h1
    · left; simp [sendAll, sendOne, h]

theorem sendAll_ok_buffer {α : Type} (v : α) (ws : List Nat) :
    ∀ ch : Chans α, (sendAll v ws ch).2 = true →
      ∀ w ∈ ws, ((sendAll v ws ch).1).buffer w = some v := by
  induction ws with
  | nil => intro ch _ w hw; cases hw
  | cons w0 ws ih =>
    intro ch hok w hw
    by_cases h : ch.recvLive w0
    · simp only [sendAll, sendOne, h, if_true] at hok ⊢
      rcases List.mem_cons.mp hw with rfl | hw'
      · rcases sendAll_buffer v ws { ch with buffer := fun d => if d = w then some v else ch.buffer d } w with h1 | h1
        · rw [h1]; simp
        · exact h1
      · exact ih _ hok w hw'
    · simp [sendAll, sendOne, h] at hok

theorem sendAll_frame {α : Type} (v : α) (ws : List Nat) :
    ∀ (ch : Chans α) (c : Nat), c ∉ ws →
      ((sendAll v ws ch).1).buffer c = ch.buffer c := by
  induction ws with
  | nil => intro ch c _; rfl
  | cons w ws ih =>
    intro ch c hc
    have hcw : c ≠ w := fun hh => hc (hh ▸ List.mem_cons_self w ws)
    have hc' : c ∉ ws := fun hh => hc (List.mem_cons_of_mem _ hh)
    by_cases h : ch.recvLive w
    · simp only [sendAll, sendOne, h, if_true]
      rw [ih _ c hc']
      simp [hcw]
    · simp [sendAll, sendOne, h]

theorem sendAll_firstFail {α : Type} (v : α) (d : Nat) (ws₂ : List Nat) (ws₁ : List Nat) :
    ∀ ch : Chans α, (∀ w ∈ ws₁, ch.recvLive w = true) → ch.recvLive d = false →
      (sendAll v (ws₁ ++ d :: ws₂) ch).2 = false ∧
      (∀ w ∈ ws₁, ((sendAll v (ws₁ ++ d :: ws₂) ch).1).buffer w = some v) ∧
      (∀ c, c ∉ ws₁ → ((sendAll v (ws₁ ++ d :: ws₂) ch).1).buffer c = ch.buffer c) := by
  induction ws₁ with
  | nil =>
    intro ch _ hdead
    refine ⟨?_, ?_, ?_⟩
    · simp [sendAll, sendOne, hdead]
    · intro w hw; cases hw
    · intro c _; simp [sendAll, sendOne, hdead]
  | cons w0 ws ih =>
    intro ch hlive hdead
    have hw0 : ch.recvLive w0 = true := hlive w0 (List.mem_cons_self _ _)
    set ch1 : Chans α := { ch with buffer := fun d' => if d' = w0 then some v else ch.buffer d' } with hch1
    have hstep : sendAll v ((w0 :: ws) ++ d :: ws₂) ch = sendAll v (ws ++ d :: ws₂) ch1 := by
      simp [sendAll, sendOne, hw0, hch1]
    have hlive1 : ∀ w ∈ ws, ch1.recvLive w = true := fun w hw => hlive w (List.mem_cons_of_mem _ hw)
    have hdead1 : ch1.recvLive d = false := hdead
    obtain ⟨h2, h3, h4⟩ := ih ch1 hlive1 hdead1
    refine ⟨by rw [hstep]; exact h2, ?_, ?_⟩
    · intro w hw
      rw [hstep]
      rcases List.mem_cons.mp hw with rfl | hw'
      · by_cases hmem : w ∈ ws
        · exact h3 w hmem
        · rw [h4 w hmem]; simp [hch1]
      · exact h3 w hw'
    · intro c hc
      have hcw : c ≠ w0 := fun hh => hc (hh ▸ List.mem_cons_self w0 ws)
      have hc' : c ∉ ws := fun hh => hc (List.mem_cons_of_mem _ hh)
      rw [hstep, h4 c hc']
      simp [hch1, hcw]

/-! ### Slot and registration lemmas -/

theorem add_waiter_value {α : Type} (p : Price α) (w : Nat) :
    (p.add_waiter w).value = p.value := by
  unfold Price.add_waiter
  cases p.waiters <;> rfl

theorem add_waiter_waiters {α : Type} (p : Price α) (w : Nat) :
    (p.add_waiter w).waiters = some (p.waiters.getD [] ++ [w]) := by
  unfold Price.add_waiter
  cases p.waiters <;> simp

theorem slotWaiters_eq {α : Type} (s : ThreadUnsafe α) (k : String) (p : Price α)
    (ws : List Nat) (hl : mapLookup s.hashmap k = some p) (hw : p.waiters = some ws) :
    slotWaiters s k = ws := by
  unfold slotWaiters
  rw [hl]
  simp [hw]

theorem mem_slotWaiters {α : Type} (s : ThreadUnsafe α) (k : String) (rx : Nat)
    (h : rx ∈ slotWaiters s k) :
    ∃ p ws, mapLookup s.hashmap k = some p ∧ p.waiters = some ws ∧ rx ∈ ws := by
  unfold slotWaiters at h
  cases hl : mapLookup s.hashmap k with
  | none => rw [hl] at h; cases h
  | some p =>
    rw [hl] at h
    simp only at h
    cases hw : p.waiters with
    | none => rw [hw] at h; cases h
    | some ws =>
      rw [hw] at h
      exact ⟨p, ws, rfl, hw, h⟩

theorem senderAlive_of_mem {α : Type} (s : ThreadUnsafe α) (k : String) (rx : Nat)
    (h : rx ∈ slotWaiters s k) : s.senderAlive rx = true := by
  obtain ⟨p, ws, hl, hw, hrx⟩ := mem_slotWaiters s k rx h
  unfold ThreadUnsafe.senderAlive
  refine List.any_eq_true.mpr ⟨(k, p), mapLookup_mem _ _ _ hl, ?_⟩
  simp only [hw]
  exact List.elem_eq_true_of_mem hrx

theorem price_receiver_rx {α : Type} (s : ThreadUnsafe α) (k : String) (ch : Chans α) :
    (s.price_receiver k ch).2.2 = s.nextId := by
  unfold ThreadUnsafe.price_receiver
  cases mapLookup s.hashmap k <;> rfl

theorem price_receiver_buffer {α : Type} (s : ThreadUnsafe α) (k : String) (ch : Chans α)
    (c : Nat) :
    ((s.price_receiver k ch).2.1).buffer c = if c = s.nextId then none else ch.buffer c := by
  unfold ThreadUnsafe.price_receiver
  cases mapLookup s.hashmap k <;> rfl

theorem price_receiver_recvLive {α : Type} (s : ThreadUnsafe α) (k : String) (ch : Chans α)
    (c : Nat) :
    ((s.price_receiver k ch).2.1).recvLive c = if c = s.nextId then true else ch.recvLive c := by
  unfold ThreadUnsafe.price_receiver
  cases mapLookup s.hashmap k <;> rfl

theorem slotWaiters_price_receiver {α : Type} (s : ThreadUnsafe α) (k : String) (ch : Chans α) :
    slotWaiters (s.price_receiver k ch).1 k = slotWaiters s k ++ [s.nextId] := by
  unfold ThreadUnsafe.price_receiver slotWaiters
  cases hl : mapLookup s.hashmap k with
  | some p =>
    simp only
    rw [mapLookup_mapUpdate_self _ _ _ _ hl]
    simp [add_waiter_waiters]
  | none =>
    simp only
    rw [mapLookup_append_self _ _ _ hl]
    simp [add_waiter_waiters, Price.new]

theorem get_price_price_receiver {α : Type} (s : ThreadUnsafe α) (k k' : String)
    (ch : Chans α) :
    ((s.price_receiver k ch).1).get_price k' = s.get_price k' := by
  unfold ThreadUnsafe.price_receiver ThreadUnsafe.get_price
  cases hl : mapLookup s.hashmap k with
  | some p =>
    by_cases hk : k = k'
    · subst hk
      simp only
      rw [mapLookup_mapUpdate_self _ _ _ _ hl, hl]
      simp [add_waiter_value]
    · simp only
      rw [mapLookup_mapUpdate_ne _ _ _ _ hk]
  | none =>
    by_cases hk : k = k'
    · subst hk
      simp only
      rw [mapLookup_append_self _ _ _ hl, hl]
      simp [add_waiter_value, Price.new]
    · simp only
      rw [mapLookup_append_ne _ _ _ _ hk]

theorem registerN_slotWaiters {α : Type} (k : String) (n : Nat) :
    ∀ (s : ThreadUnsafe α) (ch : Chans α),
      slotWaiters (registerN k n s ch).1 k = slotWaiters s k ++ (registerN k n s ch).2.2 := by
  induction n with
  | zero => intro s ch; simp [registerN]
  | succ n ih =>
    intro s ch
    simp only [registerN]
    rw [ih, slotWaiters_price_receiver, price_receiver_rx]
    simp

theorem registerN_length {α : Type} (k : String) (n : Nat) :
    ∀ (s : ThreadUnsafe α) (ch : Chans α), ((registerN k n s ch).2.2).length = n := by
  induction n with
  | zero => intro s ch; rfl
  | succ n ih =>
    intro s ch
    simp only [registerN, List.length_cons]
    rw [ih]

/-! ### `put_price` lemmas -/

theorem put_price_get_price {α : Type} (s : ThreadUnsafe α) (k : String) (v : α)
    (ch : Chans α) :
    ((s.put_price k v ch).1).get_price k = some v := by
  unfold ThreadUnsafe.put_price ThreadUnsafe.get_price
  cases hl : mapLookup s.hashmap k with
  | some p =>
    simp only
    rw [mapLookup_mapUpdate_self _ _ _ _ hl]
    unfold Price.update_price Price.notify_waiters
    cases hw : (Price.mk (some v) p.waiters : Price α).waiters with
    | none => rfl
    | some ws =>
      simp only [hw]
      by_cases hok : (sendAll v ws ch).2 <;> simp [hok]
  | none =>
    simp only
    rw [mapLookup_append_self _ _ _ hl]
    rfl

theorem put_price_frame {α : Type} (s : ThreadUnsafe α) (k k' : String) (v : α)
    (ch : Chans α) (h : k ≠ k') :
    mapLookup ((s.put_price k v ch).1).hashmap k' = mapLookup s.hashmap k' := by
  unfold ThreadUnsafe.put_price
  cases hl : mapLookup s.hashmap k with
  | some p =>
    simp only
    rw [mapLookup_mapUpdate_ne _ _ _ _ h]
  | none =>
    simp only
    rw [mapLookup_append_ne _ _ _ _ h]

theorem recvResult_of_buffer {α : Type} (s : ThreadUnsafe α) (ch : Chans α) (c : Nat)
    (v : α) (h : ch.buffer c = some v) : recvResult s ch c = some (.ok v) := by
  unfold recvResult
  rw [h]

theorem put_price_ok_sendAll {α : Type} (s : ThreadUnsafe α) (k : String) (v : α)
    (ch : Chans α) (p : Price α) (ws : List Nat)
    (hl : mapLookup s.hashmap k = some p) (hw : p.waiters = some ws)
    (hok : (s.put_price k v ch).2.2 = Except.ok ()) :
    (sendAll v ws ch).2 = true ∧ (s.put_price k v ch).2.1 = (sendAll v ws ch).1 := by
  unfold ThreadUnsafe.put_price at hok ⊢
  rw [hl] at hok ⊢
  unfold Price.update_price Price.notify_waiters at hok ⊢
  simp only [hw] at hok ⊢
  by_cases hs : (sendAll v ws ch).2
  · exact ⟨hs, by simp [hs]⟩
  · simp [hs] at hok

theorem put_price_delivers {α : Type} (s : ThreadUnsafe α) (k : String) (v : α)
    (ch : Chans α) (rx : Nat) (hmem : rx ∈ slotWaiters s k)
    (hok : (s.put_price k v ch).2.2 = Except.ok ()) :
    recvResult ((s.put_price k v ch).1) ((s.put_price k v ch).2.1) rx = some (.ok v) := by
  obtain ⟨p, ws, hl, hw, hrx⟩ := mem_slotWaiters s k rx hmem
  obtain ⟨hs, hch⟩ := put_price_ok_sendAll s k v ch p ws hl hw hok
  refine recvResult_of_buffer _ _ _ _ ?_
  rw [hch]
  exact sendAll_ok_buffer v ws ch hs rx hrx

theorem senderAlive_clear_fresh {α : Type} (s : ThreadUnsafe α) (ch : Chans α) (k : String)
    (hwf : s.wf) :
    (((s.price_receiver k ch).1).clearWaiters k).senderAlive (s.price_receiver k ch).2.2
      = false := by
  rw [price_receiver_rx]
  cases hl : mapLookup s.hashmap k with
  | some p =>
    have hs1 : (s.price_receiver k ch).1
        = ⟨mapUpdate s.hashmap k (p.add_waiter s.nextId), s.nextId + 1⟩ := by
      unfold ThreadUnsafe.price_receiver
      rw [hl]
    have hclear : ((s.price_receiver k ch).1).clearWaiters k
        = ⟨mapUpdate s.hashmap k ⟨(p.add_waiter s.nextId).value, none⟩, s.nextId + 1⟩ := by
      rw [hs1]
      unfold ThreadUnsafe.clearWaiters
      simp only
      rw [mapLookup_mapUpdate_self _ _ _ _ hl]
      simp only
      rw [mapUpdate_mapUpdate]
    rw [hclear]
    unfold ThreadUnsafe.senderAlive
    simp only [List.any_eq_false]
    intro kp hkp
    rcases mem_mapUpdate _ _ _ _ hkp with hmem | hval
    · cases hw : kp.2.waiters with
      | none => simp [hw]
      | some ws =>
        simp only [hw]
        intro hc
        have hmemws := List.mem_of_elem_eq_true hc
        have hlt := hwf kp hmem s.nextId (by rw [hw]; exact hmemws)
        exact absurd hlt (lt_irrefl _)
    · rw [hval]
      simp
  | none =>
    have hs1 : (s.price_receiver k ch).1
        = ⟨s.hashmap ++ [(k, (Price.new α).add_waiter s.nextId)], s.nextId + 1⟩ := by
      unfold ThreadUnsafe.price_receiver
      rw [hl]
    have hclear : ((s.price_receiver k ch).1).clearWaiters k
        = ⟨s.hashmap ++ [(k, ⟨((Price.new α).add_waiter s.nextId).value, none⟩)],
            s.nextId + 1⟩ := by
      rw [hs1]
      unfold ThreadUnsafe.clearWaiters
      simp only
      rw [mapLookup_append_self _ _ _ hl]
      simp only
      rw [mapUpdate_append_of_none _ _ _ _ hl]
    rw [hclear]
    unfold ThreadUnsafe.senderAlive
    simp only [List.any_eq_false]
    intro kp hkp
    rcases List.mem_append.mp hkp with hmem | hlast
    · cases hw : kp.2.waiters with
      | none => simp [hw]
      | some ws =>
        simp only [hw]
        intro hc
        have hmemws := List.mem_of_elem_eq_true hc
        have hlt := hwf kp hmem s.nextId (by rw [hw]; exact hmemws)
        exact absurd hlt (lt_irrefl _)
    · have hkp' : kp = (k, ⟨((Price.new α).add_waiter s.nextId).value, none⟩) := by
        simpa using hlast
      rw [hkp']
      simp

/-! ### Claim theorems -/

/-- C4: for every key `k` and values `v1 ≠ v2`, `put_price k v1` followed by
`put_price k v2` on any store leaves `get_price k = some v2`: the latest
written value overwrites the earlier one. -/
theorem C4_read_after_write {α : Type} (s : ThreadUnsafe α) (ch : Chans α)
    (k : String) (v1 v2 : α) (_hne : v1 ≠ v2) :
    (((s.put_price k v1 ch).1).put_price k v2 (s.put_price k v1 ch).2.1).1.get_price k
      = some v2 :=
  put_price_get_price _ _ _ _

/-- Witness for C4 at `k = "a"`, `v1 = 1`, `v2 = 2` on the empty store. -/
theorem C4_read_after_write_witness :
    ((((ThreadUnsafe.new Nat).put_price "a" 1 (Chans.init Nat)).1).put_price "a" 2
        ((ThreadUnsafe.new Nat).put_price "a" 1 (Chans.init Nat)).2.1).1.get_price "a"
      = some 2 :=
  C4_read_after_write (ThreadUnsafe.new Nat) (Chans.init Nat) "a" 1 2 (by decide)

/-- C7: a `put_price` on key `k1` leaves the `Price` slot of any other key
`k2` (both its stored value and its waiter list) unchanged; `get_price` is
embedded as a pure function of the store (returning only `Option α`), so it
mutates no slot at all. -/
theorem C7_independent_keys {α : Type} (s : ThreadUnsafe α) (ch : Chans α)
    (k1 k2 : String) (v : α) (h : k1 ≠ k2) :
    mapLookup ((s.put_price k1 v ch).1).hashmap k2 = mapLookup s.hashmap k2 :=
  put_price_frame s k1 k2 v ch h

/-- Witness for C7 at `k1 = "a"`, `k2 = "b"` on a store already holding `"b"`. -/
theorem C7_independent_keys_witness :
    mapLookup ((((ThreadUnsafe.new Nat).put_price "b" 5 (Chans.init Nat)).1).put_price "a" 1
        (Chans.init Nat)).1.hashmap "b"
      = mapLookup (((ThreadUnsafe.new Nat).put_price "b" 5 (Chans.init Nat)).1).hashmap "b" :=
  C7_independent_keys (((ThreadUnsafe.new Nat).put_price "b" 5 (Chans.init Nat)).1)
    (Chans.init Nat) "a" "b" 1 (by decide)

/-- C8: `get_price k` returns `none` when `k` has no slot, and also when the
slot exists but was created only by a waiter registration (`price_receiver`
never sets the value, for the registered key or any other); `get_price` is a
total pure function of the store, so it never blocks and never mutates. -/
theorem C8_unknown_key {α : Type} (s : ThreadUnsafe α) (ch : Chans α) (k k' : String)
    (h : mapLookup s.hashmap k = none) :
    s.get_price k = none ∧
    ((s.price_receiver k ch).1).get_price k = none ∧
    ((s.price_receiver k ch).1).get_price k' = s.get_price k' := by
  have h1 : s.get_price k = none := by
    unfold ThreadUnsafe.get_price
    rw [h]
  refine ⟨h1, ?_, get_price_price_receiver s k k' ch⟩
  rw [get_price_price_receiver s k k ch]
  exact h1

/-- Witness for C8 at `k = "x"`, `k' = "y"` on the empty store. -/
theorem C8_unknown_key_witness :
    (ThreadUnsafe.new Nat).get_price "x" = none ∧
    (((ThreadUnsafe.new Nat).price_receiver "x" (Chans.init Nat)).1).get_price "x" = none ∧
    (((ThreadUnsafe.new Nat).price_receiver "x" (Chans.init Nat)).1).get_price "y"
      = (ThreadUnsafe.new Nat).get_price "y" :=
  C8_unknown_key (ThreadUnsafe.new Nat) (Chans.init Nat) "x" "y" (by decide)

/-- C10: `update_price` stores the value before attempting notification, so
even when `put_price k v` reports a `SendError` (some waiter's receiver was
abandoned), a subsequent `get_price k` returns `some v`: the value update is
not rolled back on notification failure. -/
theorem C10_value_survives_send_error {α : Type} (s : ThreadUnsafe α) (ch : Chans α)
    (k : String) (v : α) (e : SendErr α)
    (_herr : (s.put_price k v ch).2.2 = Except.error e) :
    ((s.put_price k v ch).1).get_price k = some v :=
  put_price_get_price s k v ch

/-- Witness for C10: one abandoned waiter on `"s"`, the write of `7` reports
`SendError` yet `get_price` returns `some 7`. -/
theorem C10_value_survives_send_error_witness :
    ((((ThreadUnsafe.new Nat).price_receiver "s" (Chans.init Nat)).1).put_price "s" 7
        (Chans.init Nat)).2.2 = Except.error ⟨7⟩ ∧
    ((((ThreadUnsafe.new Nat).price_receiver "s" (Chans.init Nat)).1).put_price "s" 7
        (Chans.init Nat)).1.get_price "s" = some 7 :=
  ⟨by decide,
    C10_value_survives_send_error (((ThreadUnsafe.new Nat).price_receiver "s"
      (Chans.init Nat)).1) (Chans.init Nat) "s" 7 ⟨7⟩ (by decide)⟩

/-- C2: with `n` waiter registrations on key `k` completed before a
`put_price k v` that returns `Ok`, all `n` pending receives return exactly
`some (.ok v)`: every registered one-shot channel holds that single write's
value, so each blocked `next_price` call returns exactly `v` (one value per
one-shot channel per call). -/
theorem C2_broadcast {α : Type} (s : ThreadUnsafe α) (ch : Chans α) (k : String)
    (v : α) (n : Nat)
    (hok : (((registerN k n s ch).1).put_price k v (registerN k n s ch).2.1).2.2
      = Except.ok ()) :
    ((registerN k n s ch).2.2).length = n ∧
    ∀ rx ∈ (registerN k n s ch).2.2,
      recvResult (((registerN k n s ch).1).put_price k v (registerN k n s ch).2.1).1
        (((registerN k n s ch).1).put_price k v (registerN k n s ch).2.1).2.1 rx
        = some (.ok v) := by
  refine ⟨registerN_length k n s ch, ?_⟩
  intro rx hrx
  apply put_price_delivers
  · rw [registerN_slotWaiters]
    exact List.mem_append.mpr (Or.inr hrx)
  · exact hok

/-- Witness for C2 with `n = 2` registrations on `"s"` and the write of `9`. -/
theorem C2_broadcast_witness :
    (((registerN "s" 2 (ThreadUnsafe.new Nat) (Chans.init Nat)).1).put_price "s" 9
        (registerN "s" 2 (ThreadUnsafe.new Nat) (Chans.init Nat)).2.1).2.2 = Except.ok () ∧
    ((registerN "s" 2 (ThreadUnsafe.new Nat) (Chans.init Nat)).2.2).length = 2 ∧
    ∀ rx ∈ (registerN "s" 2 (ThreadUnsafe.new Nat) (Chans.init Nat)).2.2,
      recvResult (((registerN "s" 2 (ThreadUnsafe.new Nat) (Chans.init Nat)).1).put_price "s" 9
          (registerN "s" 2 (ThreadUnsafe.new Nat) (Chans.init Nat)).2.1).1
        (((registerN "s" 2 (ThreadUnsafe.new Nat) (Chans.init Nat)).1).put_price "s" 9
          (registerN "s" 2 (ThreadUnsafe.new Nat) (Chans.init Nat)).2.1).2.1 rx
        = some (.ok 9) :=
  ⟨by decide,
    (C2_broadcast (ThreadUnsafe.new Nat) (Chans.init Nat) "s" 9 2 (by decide)).1,
    (C2_broadcast (ThreadUnsafe.new Nat) (Chans.init Nat) "s" 9 2 (by decide)).2⟩

/-- C3: a waiter registration (`price_receiver`) never consults or changes the
slot's stored value: `get_price` is unchanged by it, the freshly registered
receive is still blocked immediately after registration (so it cannot return
the currently stored value), and when a write after the registration returns
`Ok` the receive returns exactly that write's value. -/
theorem C3_waits_for_future_write {α : Type} (s : ThreadUnsafe α) (ch : Chans α)
    (k : String) (v2 : α)
    (hok : (((s.price_receiver k ch).1).put_price k v2 (s.price_receiver k ch).2.1).2.2
      = Except.ok ()) :
    ((s.price_receiver k ch).1).get_price k = s.get_price k ∧
    recvResult (s.price_receiver k ch).1 (s.price_receiver k ch).2.1
      (s.price_receiver k ch).2.2 = none ∧
    recvResult (((s.price_receiver k ch).1).put_price k v2 (s.price_receiver k ch).2.1).1
      (((s.price_receiver k ch).1).put_price k v2 (s.price_receiver k ch).2.1).2.1
      (s.price_receiver k ch).2.2 = some (.ok v2) := by
  refine ⟨get_price_price_receiver s k k ch, ?_, ?_⟩
  · have hb : ((s.price_receiver k ch).2.1).buffer (s.price_receiver k ch).2.2 = none := by
      rw [price_receiver_rx, price_receiver_buffer]
      simp
    have hm : (s.price_receiver k ch).2.2 ∈ slotWaiters (s.price_receiver k ch).1 k := by
      rw [price_receiver_rx, slotWaiters_price_receiver]
      simp
    have ha := senderAlive_of_mem _ _ _ hm
    unfold recvResult
    rw [hb, ha]
    simp
  · apply put_price_delivers
    · rw [price_receiver_rx, slotWaiters_price_receiver]
      simp
    · exact hok

/-- Witness for C3: `1` is already stored for `"s"`; the registered waiter is
blocked rather than being handed the stored `1`, and the later write of `2`
is what it receives. -/
theorem C3_waits_for_future_write_witness :
    ((((ThreadUnsafe.new Nat).put_price "s" 1 (Chans.init Nat)).1.price_receiver "s"
        (Chans.init Nat)).1).get_price "s"
      = (((ThreadUnsafe.new Nat).put_price "s" 1 (Chans.init Nat)).1).get_price "s" ∧
    recvResult (((ThreadUnsafe.new Nat).put_price "s" 1 (Chans.init Nat)).1.price_receiver "s"
        (Chans.init Nat)).1
      (((ThreadUnsafe.new Nat).put_price "s" 1 (Chans.init Nat)).1.price_receiver "s"
        (Chans.init Nat)).2.1
      (((ThreadUnsafe.new Nat).put_price "s" 1 (Chans.init Nat)).1.price_receiver "s"
        (Chans.init Nat)).2.2 = none ∧
    recvResult ((((ThreadUnsafe.new Nat).put_price "s" 1 (Chans.init Nat)).1.price_receiver "s"
          (Chans.init Nat)).1.put_price "s" 2
        (((ThreadUnsafe.new Nat).put_price "s" 1 (Chans.init Nat)).1.price_receiver "s"
          (Chans.init Nat)).2.1).1
      ((((ThreadUnsafe.new Nat).put_price "s" 1 (Chans.init Nat)).1.price_receiver "s"
          (Chans.init Nat)).1.put_price "s" 2
        (((ThreadUnsafe.new Nat).put_price "s" 1 (Chans.init Nat)).1.price_receiver "s"
          (Chans.init Nat)).2.1).2.1
      (((ThreadUnsafe.new Nat).put_price "s" 1 (Chans.init Nat)).1.price_receiver "s"
        (Chans.init Nat)).2.2 = some (.ok 2) :=
  C3_waits_for_future_write (((ThreadUnsafe.new Nat).put_price "s" 1 (Chans.init Nat)).1)
    (Chans.init Nat) "s" 2 (by decide)

/-- C9: `ThreadSafe::next_price` is two-phase — the lock (modelled by each
delegated call being one atomic step on the shared inner store) is held only
for the registration step, and the blocking receive happens outside it, so a
`put_price` from another handle can run between the two phases; when that
interleaved write returns `Ok`, the waiter's receive returns its value
(no deadlock: the writer was able to acquire the lock and deliver). -/
theorem C9_two_phase_no_deadlock {α : Type} (t : ThreadSafe α) (ch : Chans α)
    (k : String) (v : α)
    (hok : (((t.next_price_registration k ch).1).put_price k v
      (t.next_price_registration k ch).2.1).2.2 = Except.ok ()) :
    recvResult (((t.next_price_registration k ch).1).put_price k v
        (t.next_price_registration k ch).2.1).1.inner
      (((t.next_price_registration k ch).1).put_price k v
        (t.next_price_registration k ch).2.1).2.1
      (t.next_price_registration k ch).2.2 = some (.ok v) := by
  unfold ThreadSafe.next_price_registration ThreadSafe.put_price at hok ⊢
  simp only at hok ⊢
  apply put_price_delivers
  · rw [price_receiver_rx, slotWaiters_price_receiver]
    simp
  · exact hok

/-- Witness for C9: a fresh shared handle, registration on `"s"`, then a
write of `3` from another handle fulfils the waiter. -/
theorem C9_two_phase_no_deadlock_witness :
    ((((ThreadSafe.new Nat).next_price_registration "s" (Chans.init Nat)).1).put_price "s" 3
        ((ThreadSafe.new Nat).next_price_registration "s" (Chans.init Nat)).2.1).2.2
      = Except.ok () ∧
    recvResult ((((ThreadSafe.new Nat).next_price_registration "s" (Chans.init Nat)).1).put_price
        "s" 3 ((ThreadSafe.new Nat).next_price_registration "s" (Chans.init Nat)).2.1).1.inner
      ((((ThreadSafe.new Nat).next_price_registration "s" (Chans.init Nat)).1).put_price "s" 3
        ((ThreadSafe.new Nat).next_price_registration "s" (Chans.init Nat)).2.1).2.1
      ((ThreadSafe.new Nat).next_price_registration "s" (Chans.init Nat)).2.2
      = some (.ok 3) :=
  ⟨by decide,
    C9_two_phase_no_deadlock (ThreadSafe.new Nat) (Chans.init Nat) "s" 3 (by decide)⟩

/-- C5: immediately after a `put_price k v` that returns `Ok`, the slot for
`k` has an empty waiter list (`waiters = none`, cleared as a single unit by
`notify_waiters` right after the whole send loop succeeded), and every waiter
that was registered before the write was sent the value. -/
theorem C5_waiters_cleared {α : Type} (s : ThreadUnsafe α) (ch : Chans α)
    (k : String) (v : α)
    (hok : (s.put_price k v ch).2.2 = Except.ok ()) :
    (∃ p, mapLookup ((s.put_price k v ch).1).hashmap k = some p ∧ p.waiters = none) ∧
    ∀ w ∈ slotWaiters s k, ((s.put_price k v ch).2.1).buffer w = some v := by
  constructor
  · unfold ThreadUnsafe.put_price at hok ⊢
    cases hl : mapLookup s.hashmap k with
    | none =>
      simp only
      rw [mapLookup_append_self _ _ _ hl]
      exact ⟨_, rfl, rfl⟩
    | some p =>
      rw [hl] at hok
      simp only at hok ⊢
      unfold Price.update_price Price.notify_waiters at hok ⊢
      cases hw : p.waiters with
      | none =>
        simp only [hw] at hok ⊢
        exact ⟨_, mapLookup_mapUpdate_self _ _ _ _ hl, rfl⟩
      | some ws =>
        simp only [hw] at hok ⊢
        by_cases hs : (sendAll v ws ch).2
        · simp only [hs, if_true] at hok ⊢
          exact ⟨_, mapLookup_mapUpdate_self _ _ _ _ hl, rfl⟩
        · simp [hs] at hok
  · intro w hw
    obtain ⟨p, ws, hl, hws, hmem⟩ := mem_slotWaiters s k w hw
    obtain ⟨hs, hch⟩ := put_price_ok_sendAll s k v ch p ws hl hws hok
    rw [hch]
    exact sendAll_ok_buffer v ws ch hs w hmem

/-- Witness for C5: two waiters on `"s"`, the write of `4` succeeds, the slot's
waiter list is cleared and both waiters were sent `4`. -/
theorem C5_waiters_cleared_witness :
    (((registerN "s" 2 (ThreadUnsafe.new Nat) (Chans.init Nat)).1).put_price "s" 4
      (registerN "s" 2 (ThreadUnsafe.new Nat) (Chans.init Nat)).2.1).2.2 = Except.ok () ∧
    (∃ p, mapLookup ((((registerN "s" 2 (ThreadUnsafe.new Nat) (Chans.init Nat)).1).put_price
      "s" 4 (registerN "s" 2 (ThreadUnsafe.new Nat) (Chans.init Nat)).2.1).1).hashmap "s"
        = some p ∧ p.waiters = none) ∧
    ∀ w ∈ slotWaiters (registerN "s" 2 (ThreadUnsafe.new Nat) (Chans.init Nat)).1 "s",
      ((((registerN "s" 2 (ThreadUnsafe.new Nat) (Chans.init Nat)).1).put_price "s" 4
        (registerN "s" 2 (ThreadUnsafe.new Nat) (Chans.init Nat)).2.1).2.1).buffer w
        = some 4 :=
  ⟨by decide,
    (C5_waiters_cleared ((registerN "s" 2 (ThreadUnsafe.new Nat) (Chans.init Nat)).1)
      ((registerN "s" 2 (ThreadUnsafe.new Nat) (Chans.init Nat)).2.1) "s" 4 (by decide)).1,
    (C5_waiters_cleared ((registerN "s" 2 (ThreadUnsafe.new Nat) (Chans.init Nat)).1)
      ((registerN "s" 2 (ThreadUnsafe.new Nat) (Chans.init Nat)).2.1) "s" 4 (by decide)).2⟩

/-- C6: for every well-formed store, a waiter whose registration on key `k`
is cleared without a value being sent (`waiters = None`, as the repository's
channel-closed tests do) observes the channel-closed error `RecvError` rather
than staying blocked, in both the single-owner (`ThreadUnsafe`) and shared
(`ThreadSafe`) variants; conversely, a value delivered by a write that
returns `Ok` is returned successfully. -/
theorem C6_closed_or_delivered {α : Type} (s : ThreadUnsafe α) (ch : Chans α)
    (k : String) (v : α) (hwf : s.wf) :
    recvResult (((s.price_receiver k ch).1).clearWaiters k)
      (s.price_receiver k ch).2.1 (s.price_receiver k ch).2.2
      = some (.error RecvErr.mk) ∧
    recvResult ((((ThreadSafe.mk s).next_price_registration k ch).1.clearWaiters k)).inner
      ((ThreadSafe.mk s).next_price_registration k ch).2.1
      ((ThreadSafe.mk s).next_price_registration k ch).2.2
      = some (.error RecvErr.mk) ∧
    ((((s.price_receiver k ch).1).put_price k v (s.price_receiver k ch).2.1).2.2 = Except.ok ()
      → recvResult (((s.price_receiver k ch).1).put_price k v (s.price_receiver k ch).2.1).1
          (((s.price_receiver k ch).1).put_price k v (s.price_receiver k ch).2.1).2.1
          (s.price_receiver k ch).2.2 = some (.ok v)) := by
  have hbuf : ((s.price_receiver k ch).2.1).buffer (s.price_receiver k ch).2.2 = none := by
    rw [price_receiver_rx, price_receiver_buffer]
    simp
  have hsa := senderAlive_clear_fresh s ch k hwf
  have h1 : recvResult (((s.price_receiver k ch).1).clearWaiters k)
      (s.price_receiver k ch).2.1 (s.price_receiver k ch).2.2
      = some (.error RecvErr.mk) := by
    unfold recvResult
    rw [hbuf]
    simp [hsa]
  refine ⟨h1, h1, ?_⟩
  intro hok
  apply put_price_delivers
  · rw [price_receiver_rx, slotWaiters_price_receiver]
    simp
  · exact hok

/-- Witness for C6 on the empty store with `k = "s"`, `v = 5`: the cleared
registration yields `RecvError` in both variants, and the delivered write of
`5` is received as `5`. -/
theorem C6_closed_or_delivered_witness :
    recvResult ((((ThreadUnsafe.new Nat).price_receiver "s" (Chans.init Nat)).1).clearWaiters
        "s")
      ((ThreadUnsafe.new Nat).price_receiver "s" (Chans.init Nat)).2.1
      ((ThreadUnsafe.new Nat).price_receiver "s" (Chans.init Nat)).2.2
      = some (.error RecvErr.mk) ∧
    recvResult ((((ThreadSafe.mk (ThreadUnsafe.new Nat)).next_price_registration "s"
        (Chans.init Nat)).1.clearWaiters "s")).inner
      ((ThreadSafe.mk (ThreadUnsafe.new Nat)).next_price_registration "s" (Chans.init Nat)).2.1
      ((ThreadSafe.mk (ThreadUnsafe.new Nat)).next_price_registration "s" (Chans.init Nat)).2.2
      = some (.error RecvErr.mk) ∧
    recvResult ((((ThreadUnsafe.new Nat).price_receiver "s" (Chans.init Nat)).1).put_price "s" 5
        ((ThreadUnsafe.new Nat).price_receiver "s" (Chans.init Nat)).2.1).1
      ((((ThreadUnsafe.new Nat).price_receiver "s" (Chans.init Nat)).1).put_price "s" 5
        ((ThreadUnsafe.new Nat).price_receiver "s" (Chans.init Nat)).2.1).2.1
      ((ThreadUnsafe.new Nat).price_receiver "s" (Chans.init Nat)).2.2 = some (.ok 5) :=
  ⟨(C6_closed_or_delivered (ThreadUnsafe.new Nat) (Chans.init Nat) "s" 5
      (by intro kp hkp; cases hkp)).1,
    (C6_closed_or_delivered (ThreadUnsafe.new Nat) (Chans.init Nat) "s" 5
      (by intro kp hkp; cases hkp)).2.1,
    (C6_closed_or_delivered (ThreadUnsafe.new Nat) (Chans.init Nat) "s" 5
      (by intro kp hkp; cases hkp)).2.2 (by decide)⟩

/-- C1 counterexample: two waiters (channels `0` and `1`) registered on `"s"`;
waiter `0`'s receiver is abandoned while waiter `1` is live.  The write of `7`
reports the `SendError`, but delivery to the live waiter `1` was never
attempted (its buffer stays empty even though its receiver is alive), and the
slot still carries both waiters — the `?` in `notify_waiters` aborts the loop
at the first failure instead of attempting every waiter. -/
theorem C1_notify_all_counterexample :
    (((((ThreadUnsafe.new Nat).price_receiver "s" (Chans.init Nat)).1.price_receiver "s"
          ((ThreadUnsafe.new Nat).price_receiver "s" (Chans.init Nat)).2.1).1).put_price "s" 7
        { buffer := (((ThreadUnsafe.new Nat).price_receiver "s" (Chans.init Nat)).1.price_receiver
            "s" ((ThreadUnsafe.new Nat).price_receiver "s" (Chans.init Nat)).2.1).2.1.buffer,
          recvLive := fun c => if c = 0 then false else
            (((ThreadUnsafe.new Nat).price_receiver "s" (Chans.init Nat)).1.price_receiver "s"
              ((ThreadUnsafe.new Nat).price_receiver "s" (Chans.init Nat)).2.1).2.1.recvLive c
        }).2.2 = Except.error ⟨7⟩ ∧
    (((((ThreadUnsafe.new Nat).price_receiver "s" (Chans.init Nat)).1.price_receiver "s"
          ((ThreadUnsafe.new Nat).price_receiver "s" (Chans.init Nat)).2.1).1).put_price "s" 7
        { buffer := (((ThreadUnsafe.new Nat).price_receiver "s" (Chans.init Nat)).1.price_receiver
            "s" ((ThreadUnsafe.new Nat).price_receiver "s" (Chans.init Nat)).2.1).2.1.buffer,
          recvLive := fun c => if c = 0 then false else
            (((ThreadUnsafe.new Nat).price_receiver "s" (Chans.init Nat)).1.price_receiver "s"
              ((ThreadUnsafe.new Nat).price_receiver "s" (Chans.init Nat)).2.1).2.1.recvLive c
        }).2.1.buffer 1 = none ∧
    (((((ThreadUnsafe.new Nat).price_receiver "s" (Chans.init Nat)).1.price_receiver "s"
          ((ThreadUnsafe.new Nat).price_receiver "s" (Chans.init Nat)).2.1).1).put_price "s" 7
        { buffer := (((ThreadUnsafe.new Nat).price_receiver "s" (Chans.init Nat)).1.price_receiver
            "s" ((ThreadUnsafe.new Nat).price_receiver "s" (Chans.init Nat)).2.1).2.1.buffer,
          recvLive := fun c => if c = 0 then false else
            (((ThreadUnsafe.new Nat).price_receiver "s" (Chans.init Nat)).1.price_receiver "s"
              ((ThreadUnsafe.new Nat).price_receiver "s" (Chans.init Nat)).2.1).2.1.recvLive c
        }).2.1.recvLive 1 = true ∧
    mapLookup (((((ThreadUnsafe.new Nat).price_receiver "s" (Chans.init Nat)).1.price_receiver
          "s" ((ThreadUnsafe.new Nat).price_receiver "s" (Chans.init Nat)).2.1).1).put_price "s" 7
        { buffer := (((ThreadUnsafe.new Nat).price_receiver "s" (Chans.init Nat)).1.price_receiver
            "s" ((ThreadUnsafe.new Nat).price_receiver "s" (Chans.init Nat)).2.1).2.1.buffer,
          recvLive := fun c => if c = 0 then false else
            (((ThreadUnsafe.new Nat).price_receiver "s" (Chans.init Nat)).1.price_receiver "s"
              ((ThreadUnsafe.new Nat).price_receiver "s" (Chans.init Nat)).2.1).2.1.recvLive c
        }).1.hashmap "s" = some ⟨some 7, some [0, 1]⟩ := by
  decide

/-- C1 (amended): when the slot's waiter list is `ws₁ ++ d :: ws₂` with every
waiter of `ws₁` live and `d`'s receiver abandoned, `put_price` delivers the
value to the waiters of `ws₁` only, aborts at `d` (no later waiter's channel
is touched), reports the single `SendError ⟨v⟩` to the writer, and leaves the
slot's waiter list unchanged (not cleared) with the value updated. -/
theorem C1_abort_at_first_failure {α : Type} (s : ThreadUnsafe α) (ch : Chans α)
    (k : String) (v : α) (p : Price α) (ws₁ : List Nat) (d : Nat) (ws₂ : List Nat)
    (hl : mapLookup s.hashmap k = some p) (hw : p.waiters = some (ws₁ ++ d :: ws₂))
    (hlive : ∀ w ∈ ws₁, ch.recvLive w = true) (hdead : ch.recvLive d = false) :
    (s.put_price k v ch).2.2 = Except.error ⟨v⟩ ∧
    (∀ w ∈ ws₁, ((s.put_price k v ch).2.1).buffer w = some v) ∧
    (∀ c, c ∉ ws₁ → ((s.put_price k v ch).2.1).buffer c = ch.buffer c) ∧
    mapLookup ((s.put_price k v ch).1).hashmap k
      = some ⟨some v, some (ws₁ ++ d :: ws₂)⟩ := by
  obtain ⟨h2, h3, h4⟩ := sendAll_firstFail v d ws₂ ws₁ ch hlive hdead
  unfold ThreadUnsafe.put_price
  rw [hl]
  simp only
  unfold Price.update_price Price.notify_waiters
  simp only [hw, h2, if_false, Bool.false_eq_true]
  refine ⟨by trivial, h3, h4, ?_⟩
  rw [mapLookup_mapUpdate_self _ _ _ _ hl]

/-- Witness for the amended C1: waiter `0` abandoned, waiter `1` live and
registered after it (`ws₁ = []`, `d = 0`, `ws₂ = [1]`); the write of `7`
errors, touches no buffer, and leaves both waiters registered. -/
theorem C1_abort_at_first_failure_witness :
    ((ThreadUnsafe.mk [("s", ⟨none, some [0, 1]⟩)] 2 : ThreadUnsafe Nat).put_price "s" 7
        (Chans.mk (fun _ => none) (fun c => if c = 1 then true else false))).2.2
      = Except.error ⟨7⟩ ∧
    (∀ c, c ∉ ([] : List Nat) →
      (((ThreadUnsafe.mk [("s", ⟨none, some [0, 1]⟩)] 2 : ThreadUnsafe Nat).put_price "s" 7
        (Chans.mk (fun _ => none) (fun c => if c = 1 then true else false))).2.1).buffer c
        = (Chans.mk (fun _ => none) (fun c => if c = 1 then true else false) :
            Chans Nat).buffer c) ∧
    mapLookup (((ThreadUnsafe.mk [("s", ⟨none, some [0, 1]⟩)] 2 : ThreadUnsafe Nat).put_price
        "s" 7 (Chans.mk (fun _ => none) (fun c => if c = 1 then true else false))).1).hashmap "s"
      = some ⟨some 7, some ([] ++ 0 :: [1])⟩ := by
  have h := C1_abort_at_first_failure
    (ThreadUnsafe.mk [("s", ⟨none, some [0, 1]⟩)] 2 : ThreadUnsafe Nat)
    (Chans.mk (fun _ => none) (fun c => if c = 1 then true else false))
    "s" 7 ⟨none, some [0, 1]⟩ [] 0 [1] (by decide) (by decide)
    (by intro w hw; cases hw) (by decide)
  exact ⟨h.1, h.2.2.1, h.2.2.2⟩

end PriceHolderRs
